import Mathlib

/-
  Verification of the long-running external-operation engine of
  husarion-os-flasher.

  The Go sources are shallowly embedded: pure string manipulation becomes
  Lean functions over `List Char` / `String`; the effectful pipelines
  (process launch, exit status, sync, rename, kill) are driven by explicit
  Boolean oracles standing for the environment, and every run returns the
  ordered trace of effects and emitted messages.  Channel sends are
  modelled as delivered (the buffered progress channel; the `default:`
  branches in the source only guard teardown races, which are outside this
  sequential embedding).
-/

/-- Digit test used by `GetParentDevice` in src/ui/devices.go: the Go loop
breaks when `dev[i] < '0' || dev[i] > '9'`, i.e. continues on characters in
the inclusive range. -/
def isDigitCh (c : Char) : Bool := '0' ≤ c && c ≤ '9'

/-- Index of the last occurrence of a character, embedding Go
`strings.LastIndex(dev, "p")` for the single-character needle used by
`GetParentDevice` (`none` models the -1 result). -/
def lastIndexOf (c : Char) : List Char → Option Nat
  | [] => none
  | x :: xs =>
    match lastIndexOf c xs with
    | some i => some (i + 1)
    | none => if x = c then some 0 else none

/-- Embeds the descending-index loop of `GetParentDevice`
(src/ui/devices.go lines 19-25): scan from the end while the character is a
decimal digit, then return `dev[:i+1]`, i.e. the list without its maximal
run of trailing digits. -/
def trimDigitSuffix (cs : List Char) : List Char :=
  (cs.reverse.dropWhile isDigitCh).reverse

/-- Embeds `GetParentDevice` from src/ui/devices.go lines 10-26. -/
def getParentDevice (dev : List Char) : List Char :=
  if ("nvme".toList).isPrefixOf dev then
    match lastIndexOf 'p' dev with
    | some idx => dev.take idx
    | none => trimDigitSuffix dev
  else trimDigitSuffix dev

/-- Modelled from the claim wording of C10: the prefix of the name that
stands before the last occurrence of the character (`none` when the
character does not occur). -/
def dropFromLast (c : Char) : List Char → Option (List Char)
  | [] => none
  | x :: xs =>
    match dropFromLast c xs with
    | some r => some (x :: r)
    | none => if x = c then some [] else none

/-- Membership test on the characters of a name, used by the spec-side
reading of C10 ("contains the letter p"). -/
def containsCh (c : Char) : List Char → Bool
  | [] => false
  | x :: xs => if x = c then true else containsCh c xs

/-- Spec-side reading of C10: names starting with "nvme" that contain a 'p'
are cut before the last 'p'; every other name loses its maximal run of
trailing decimal digits. -/
def specParentDevice (dev : List Char) : List Char :=
  if ("nvme".toList).isPrefixOf dev && containsCh 'p' dev then
    (dropFromLast 'p' dev).getD dev
  else
    (dev.reverse.dropWhile Char.isDigit).reverse

theorem lastIndexOf_isSome_eq_containsCh (c : Char) :
    ∀ xs : List Char, (lastIndexOf c xs).isSome = containsCh c xs := by
  intro xs
  induction xs with
  | nil => rfl
  | cons x xs ih =>
    unfold lastIndexOf containsCh
    cases h : lastIndexOf c xs with
    | some i =>
      have hc : containsCh c xs = true := by rw [← ih, h]; rfl
      simp [hc]
    | none =>
      have hc : containsCh c xs = false := by rw [← ih, h]; rfl
      by_cases hx : x = c <;> simp [hx, hc]

theorem lastIndexOf_take_eq_dropFromLast (c : Char) :
    ∀ xs : List Char, (lastIndexOf c xs).map (xs.take ·) = dropFromLast c xs := by
  intro xs
  induction xs with
  | nil => rfl
  | cons x xs ih =>
    unfold lastIndexOf dropFromLast
    cases h : lastIndexOf c xs with
    | some i =>
      rw [h] at ih
      rw [show Option.map (xs.take ·) (some i) = some (xs.take i) from rfl] at ih
      rw [← ih]
      rfl
    | none =>
      rw [h] at ih
      rw [show Option.map (xs.take ·) (none : Option Nat) = none from rfl] at ih
      rw [← ih]
      by_cases hx : x = c <;> simp [hx]

theorem isDigitCh_eq_isDigit (c : Char) : isDigitCh c = c.isDigit := rfl

/-- C10: `GetParentDevice` returns the base disk name: for a name starting
with "nvme" that contains the letter 'p' it is the prefix before the last
'p' (so "nvme0n1p2" yields "nvme0n1"); otherwise the name with its maximal
run of trailing decimal digits removed ("sda1" yields "sda", and a name
with no trailing digits is returned unchanged). -/
theorem c10_getParentDevice_matches_spec :
    (∀ dev : List Char, getParentDevice dev = specParentDevice dev)
    ∧ getParentDevice "nvme0n1p2".toList = "nvme0n1".toList
    ∧ getParentDevice "sda1".toList = "sda".toList
    ∧ getParentDevice "sda".toList = "sda".toList := by
  refine ⟨fun dev => ?_, by decide, by decide, by decide⟩
  have hdw : dev.reverse.dropWhile isDigitCh = dev.reverse.dropWhile Char.isDigit := by
    simp [funext isDigitCh_eq_isDigit]
  unfold getParentDevice specParentDevice
  by_cases hp : (['n', 'v', 'm', 'e'] : List Char) <+: dev
  · cases h : lastIndexOf 'p' dev with
    | some idx =>
      have hc : containsCh 'p' dev = true := by
        rw [← lastIndexOf_isSome_eq_containsCh, h]; rfl
      have hd := lastIndexOf_take_eq_dropFromLast 'p' dev
      rw [h] at hd
      rw [show Option.map (dev.take ·) (some idx) = some (dev.take idx) from rfl] at hd
      simp [hp, hc, ← hd]
    | none =>
      have hc : containsCh 'p' dev = false := by
        rw [← lastIndexOf_isSome_eq_containsCh, h]; rfl
      simp [hp, hc, trimDigitSuffix, hdw]
  · simp [hp, trimDigitSuffix, hdw]

/-
  Size Estimator (src/ui/images.go): `parseHumanSize`,
  `getUncompressedSizeFromXZ`, and the fallback inside `WriteImage`.
  The regexp `([0-9][0-9,]*\.?[0-9]*)\s*(B|KiB|MiB|GiB|TiB)` is embedded as
  a direct character-level matcher with the same leftmost, first-alternative
  semantics; float64 parsing followed by int64 truncation is modelled
  exactly as mantissa-over-power-of-ten integer arithmetic (exact for the
  magnitudes the claims exercise).
-/

/-- Alternatives of the unit group of the size regexp, in the order the
pattern `(B|KiB|MiB|GiB|TiB)` tries them. -/
def unitAlternatives : List (List Char) :=
  ["B".toList, "KiB".toList, "MiB".toList, "GiB".toList, "TiB".toList]

/-- First alternative of the unit group that matches at the current
position, with the remaining characters. -/
def matchUnitGo : List (List Char) → List Char → Option (List Char × List Char)
  | [], _ => none
  | u :: us, cs =>
    if u.isPrefixOf cs then some (u, cs.drop u.length) else matchUnitGo us cs

/-- Attempts to match `([0-9][0-9,]*\.?[0-9]*)\s*(B|KiB|MiB|GiB|TiB)` at the
head of the list: one digit, a greedy run of digits and commas, an optional
dot with a greedy digit run, greedy whitespace, then the unit group.
Returns the number group, the unit group and the remaining characters. -/
def matchSizeAt (cs : List Char) : Option (List Char × List Char × List Char) :=
  match cs with
  | [] => none
  | c :: rest =>
    if isDigitCh c then
      let intPart := rest.takeWhile (fun d => isDigitCh d || d = ',')
      let r1 := rest.dropWhile (fun d => isDigitCh d || d = ',')
      let dotFrac : List Char × List Char :=
        match r1 with
        | '.' :: r => ('.' :: r.takeWhile isDigitCh, r.dropWhile isDigitCh)
        | _ => ([], r1)
      let r3 := dotFrac.2.dropWhile Char.isWhitespace
      match matchUnitGo unitAlternatives r3 with
      | some (u, r4) => some (c :: intPart ++ dotFrac.1, u, r4)
      | none => none
    else none

/-- Embeds `FindAllStringSubmatch` of the size regexp: scan left to right,
emit every match and continue after its end.  Fuel is the list length,
which bounds the number of scan positions. -/
def findAllSizesGo : Nat → List Char → List (List Char × List Char)
  | 0, _ => []
  | _ + 1, [] => []
  | fuel + 1, c :: rest =>
    match matchSizeAt (c :: rest) with
    | some (n, u, rem) => (n, u) :: findAllSizesGo fuel rem
    | none => findAllSizesGo fuel rest

/-- All size matches of a line, leftmost first. -/
def findAllSizes (cs : List Char) : List (List Char × List Char) :=
  findAllSizesGo cs.length cs

/-- Numeric value of a digit run, most significant first. -/
def digitsToNat (ds : List Char) : Nat :=
  ds.foldl (fun a c => a * 10 + (c.toNat - '0'.toNat)) 0

/-- Embeds `strconv.ParseFloat` on the comma-stripped number group: returns
the mantissa and the power of ten of the fraction, so that the float64
value is `mantissa / scale` (exact at the sizes involved); `none` models a
parse error. -/
def parseDecimalParts (cs : List Char) : Option (Nat × Nat) :=
  let intChars := cs.takeWhile isDigitCh
  let rest := cs.drop intChars.length
  if intChars.isEmpty then none
  else
    match rest with
    | [] => some (digitsToNat intChars, 1)
    | '.' :: fr =>
      if fr.all isDigitCh then some (digitsToNat (intChars ++ fr), 10 ^ fr.length)
      else none
    | _ => none

/-- Binary multipliers of the recognised unit suffixes
(src/ui/images.go lines 29-35). -/
def unitMultiplier (unit : List Char) : Option Nat :=
  if unit = "B".toList then some 1
  else if unit = "KiB".toList then some 1024
  else if unit = "MiB".toList then some (1024 * 1024)
  else if unit = "GiB".toList then some (1024 * 1024 * 1024)
  else if unit = "TiB".toList then some (1024 * 1024 * 1024 * 1024)
  else none

/-- Leading and trailing whitespace removed, embedding `strings.TrimSpace`. -/
def trimChars (cs : List Char) : List Char :=
  ((cs.dropWhile Char.isWhitespace).reverse.dropWhile Char.isWhitespace).reverse

/-- Embeds `parseHumanSize` (src/ui/images.go lines 23-50): strip commas,
parse the decimal, convert with the binary multiplier of the unit and
truncate to int64; the glued-suffix fallback mirrors lines 39-47.  `none`
models the `(0, false)` failure result. -/
def parseHumanSize (numRaw unit : List Char) : Option Int :=
  let num := numRaw.filter (fun c => c ≠ ',')
  match parseDecimalParts num with
  | none => none
  | some (man, den) =>
    match unitMultiplier (trimChars unit) with
    | some m => some (Int.ofNat (man * m / den))
    | none =>
      if ("B".toList).isSuffixOf num then
        match parseDecimalParts (num.dropLast) with
        | some (man2, den2) => some (Int.ofNat (man2 / den2))
        | none => none
      else none

/-- Substring test, embedding `strings.Contains(line, filename)` (the
pattern is the first argument here). -/
def containsSub (pat : List Char) : List Char → Bool
  | [] => pat.isEmpty
  | c :: rest => pat.isPrefixOf (c :: rest) || containsSub pat rest

/-- Value of the second size match of a line (the uncompressed column), as
selected by `matches[1]` in `getUncompressedSizeFromXZ`; `none` when the
line has fewer than two matches or that match fails to parse. -/
def secondMatchValue (line : List Char) : Option Int :=
  match findAllSizes line with
  | _ :: m2 :: _ => parseHumanSize m2.1 m2.2
  | _ => none

/-- First loop of `getUncompressedSizeFromXZ` (src/ui/images.go lines
62-74): lines containing the file name, first parseable second match wins;
other lines, and named lines whose second match fails to parse, are
skipped. -/
def scanNamedLines (filename : List Char) : List (List Char) → Option Int
  | [] => none
  | l :: ls =>
    if containsSub filename l then
      match secondMatchValue l with
      | some v => some v
      | none => scanNamedLines filename ls
    else scanNamedLines filename ls

/-- Fallback loop of `getUncompressedSizeFromXZ` (lines 76-87): walk the
lines last to first, skip blank lines, first parseable second match wins. -/
def scanTotalsLines : List (List Char) → Option Int
  | [] => none
  | l :: ls =>
    if (trimChars l).isEmpty then scanTotalsLines ls
    else
      match secondMatchValue l with
      | some v => some v
      | none => scanTotalsLines ls

/-- Embeds `getUncompressedSizeFromXZ` (src/ui/images.go lines 52-89).  The
external `xz -l` run is the environment: `none` models a failed command
(which returns `(0, false)`), `some lines` its captured output. -/
def getUncompressedSizeFromXZ (filename : List Char)
    (output : Option (List (List Char))) : Int × Bool :=
  match output with
  | none => (0, false)
  | some lines =>
    match scanNamedLines filename lines with
    | some v => (v, true)
    | none =>
      match scanTotalsLines lines.reverse with
      | some v => (v, true)
      | none => (0, false)

/-- Embeds the size determination of `WriteImage` for a compressed source
(src/ui/images.go lines 149-157): when the listing parse is not exact, fall
back to four times the compressed size from `os.Stat` (kept at the listing
value, i.e. 0, when even the stat fails). -/
def writeImageSizeEstimate (filename : List Char)
    (xzOutput : Option (List (List Char))) (statSize : Option Int) : Int × Bool :=
  let r := getUncompressedSizeFromXZ filename xzOutput
  if !r.2 then
    match statSize with
    | some sz => (sz * 4, false)
    | none => (r.1, false)
  else r

/-- Header and data line of a realistic `xz -l` listing used to exercise
the estimator at the concrete input of C8. -/
def xzListingLine : String :=
  "    1        1    103.6 MiB      1.50 GiB  0.933  CRC64   ubuntu.img.xz"

/-- C8: on a listing line whose uncompressed field is "1.50 GiB" the
estimator returns exactly 1610612736 bytes and marks the value exact
(binary units, comma separators stripped); on an unparsable listing with a
compressed size of 1000000 bytes it returns a value between 4000000 and
5000000 bytes marked not exact. -/
theorem c8_size_estimator :
    getUncompressedSizeFromXZ "ubuntu.img.xz".toList
        (some ["Strms  Blocks   Compressed Uncompressed  Ratio  Check   Filename".toList,
               xzListingLine.toList]) = (1610612736, true)
    ∧ (writeImageSizeEstimate "ubuntu.img.xz".toList
        (some ["xz: unexpected output".toList]) (some 1000000)).2 = false
    ∧ 4000000 ≤ (writeImageSizeEstimate "ubuntu.img.xz".toList
        (some ["xz: unexpected output".toList]) (some 1000000)).1
    ∧ (writeImageSizeEstimate "ubuntu.img.xz".toList
        (some ["xz: unexpected output".toList]) (some 1000000)).1 ≤ 5000000 := by
  refine ⟨by decide, by decide, by decide, by decide⟩

/-
  Operation Runner state (src/ui/model.go), the update loop
  (src/ui/update.go) and the start/abort entry points
  (src/ui/operations.go, current version).  Command and pty references are
  modelled by presence flags; log rendering (colours, wrapping) is reduced
  to the appended text.
-/

/-- Messages of the bubbletea update loop, restricted to the payloads the
engine state machine reads (`Cmd`/`Pty` pointers of the started messages
become presence flags set by the handler). -/
inductive Msg
  | progressMsg (s : String)
  | doneMsg (src dst : String)
  | errorMsg (e : String)
  | ddStartedMsg
  | extractStartedMsg
  | extractCompletedMsg (src dst : String)
  | checkStartedMsg
  | checkCompletedMsg (file : String) (ok : Bool)
  | abortCompletedMsg
  | eepromConfigMsg
  deriving DecidableEq, Repr

/-- Engine-relevant fields of `Model` (src/ui/model.go lines 20-53).  List
selections are reduced to whether an item is selected and whether the
selected image ends in ".img.xz". -/
structure Model where
  flashing : Bool := false
  aborting : Bool := false
  configuringEeprom : Bool := false
  extracting : Bool := false
  checking : Bool := false
  ready : Bool := false
  deviceSelected : Bool := false
  imageSelected : Bool := false
  compressedSelected : Bool := false
  ddCmd : Bool := false
  extractCmd : Bool := false
  checkCmd : Bool := false
  ddPty : Bool := false
  extractPty : Bool := false
  checkPty : Bool := false
  activeList : Nat := 0
  isPi : Bool := false
  freshChan : Bool := false
  extractOutputPath : Option String := none
  extractTempPath : Option String := none
  logs : List String := []
  deriving DecidableEq, Repr

/-- Recomputation of `m.Ready` performed at the top of every `Update` call
(src/ui/update.go line 180). -/
def recomputeReady (m : Model) : Model :=
  { m with ready := m.deviceSelected && m.imageSelected }

/-- Embeds the engine-relevant cases of `Model.Update`
(src/ui/update.go lines 176-368). -/
def update (m : Model) (msg : Msg) : Model :=
  let m := recomputeReady m
  match msg with
  | .progressMsg s => { m with logs := m.logs ++ [s] }
  | .doneMsg _ _ =>
    { m with flashing := false, aborting := false, ddCmd := false, ddPty := false,
             logs := m.logs ++ ["flashed successfully"] }
  | .errorMsg e =>
    { m with flashing := false, aborting := false, configuringEeprom := false,
             extracting := false, checking := false,
             ddCmd := false, extractCmd := false, checkCmd := false,
             ddPty := false, extractPty := false, checkPty := false,
             logs := m.logs ++ ["Error: " ++ e] }
  | .ddStartedMsg => { m with ddCmd := true, ddPty := true }
  | .extractStartedMsg =>
    { m with extractCmd := true, extractPty := true,
             logs := m.logs ++ ["Extraction started - monitoring progress..."] }
  | .extractCompletedMsg _ _ =>
    { m with extracting := false, extractCmd := false, extractPty := false,
             logs := m.logs ++ ["successfully extracted"] }
  | .checkStartedMsg =>
    { m with checkCmd := true, checkPty := true,
             logs := m.logs ++ ["Integrity check started - monitoring progress..."] }
  | .checkCompletedMsg _ ok =>
    { m with checking := false, checkCmd := false, checkPty := false,
             logs := m.logs ++ [if ok then "Integrity OK" else "Integrity FAILED"] }
  | .abortCompletedMsg =>
    { m with flashing := false, extracting := false, checking := false, aborting := false,
             ddCmd := false, extractCmd := false, checkCmd := false,
             ddPty := false, extractPty := false, checkPty := false,
             logs := m.logs ++ ["Operation aborted by user"] }
  | .eepromConfigMsg => { m with configuringEeprom := false }

/-- Idle in the sense of the state machine of section 4.4: no operation is
running or aborting. -/
def isIdle (m : Model) : Bool :=
  !m.flashing && !m.extracting && !m.checking && !m.aborting

/-- Focus index of the Abort button chosen by `StartFlashing`
(src/ui/operations.go lines 37-51). -/
def flashAbortIndex (isPi compressedSelected : Bool) : Nat :=
  if isPi then (if compressedSelected then 6 else 5)
  else (if compressedSelected then 5 else 4)

/-- Embeds `StartFlashing` (src/ui/operations.go lines 22-57): the guard
tests only the selections and `m.Flashing`; on passing, a fresh buffered
channel is allocated, `Flashing` is set, the log is cleared and the
`WriteImage` pipeline command is issued (second component true means a
launch was issued). -/
def startFlashing (m : Model) : Model × Bool :=
  if !m.deviceSelected || !m.imageSelected || m.flashing then (m, false)
  else
    ({ m with freshChan := true, flashing := true,
              logs := ["> Starting to flash..."],
              activeList := flashAbortIndex m.isPi m.compressedSelected }, true)

/-- Embeds the flash-button branch of `handleMouseMsg`
(src/ui/update.go lines 538-547), including the `m.Ready` recomputation the
enclosing `Update` performs first: focus moves to the button, then flashing
starts whenever neither `Flashing` nor `Extracting` is set and both lists
have a selection. -/
def clickFlashButton (m : Model) : Model × Bool :=
  let m := recomputeReady m
  let m := { m with activeList := 3 }
  if !m.flashing && !m.extracting && m.ready then startFlashing m
  else (m, false)

/-- Deferred kill tick scheduled by `AbortOperation`, tagged by the branch
that scheduled it. -/
inductive AbortScript
  | killFlash
  | killExtract
  | killCheck
  deriving DecidableEq, Repr

/-- Embeds `AbortOperation` (src/ui/operations.go lines 85-155, current
version): pick the running branch, set `Aborting`, log, and schedule the
deferred kill tick; with no running command, log and change nothing. -/
def abortOperation (m : Model) : Model × Option AbortScript :=
  let m := { m with logs := m.logs ++ ["> Attempting to abort operation..."] }
  if m.flashing && m.ddCmd then
    ({ m with aborting := true,
              logs := m.logs ++ ["Aborting flashing process... (please wait)"] },
     some .killFlash)
  else if m.extracting && m.extractCmd then
    ({ m with aborting := true,
              logs := m.logs ++ ["Aborting extraction process... (please wait)"] },
     some .killExtract)
  else if m.checking && m.checkCmd then
    ({ m with aborting := true,
              logs := m.logs ++ ["Aborting integrity check... (please wait)"] },
     some .killCheck)
  else
    ({ m with logs := m.logs ++ ["No operation to abort."] }, none)

/-- Message produced by the deferred kill tick: on a failed `Process.Kill`
only an `ErrorMsg` is returned (the pty stays open and no
`AbortCompletedMsg` is ever produced on that path); on success the pty is
closed, the extract temp and output files are removed, and `AbortCompletedMsg` is
returned. -/
def abortKillResult (s : AbortScript) (killOk : Bool) : Msg :=
  if killOk then .abortCompletedMsg
  else .errorMsg (match s with
    | .killFlash => "error aborting flash"
    | .killExtract => "error aborting extraction"
    | .killCheck => "error aborting check")

/-- C1: the claim demands that a start request issued while an operation is
Running or Aborting is a no-op.  The flash-button mouse path
(src/ui/update.go lines 538-547) guards on `Flashing` and `Extracting` but
not on `Checking`, so with an integrity check running (its process handle
live) a click on the flash button starts a second operation: the
`WriteImage` launch is issued and the model holds `Flashing` and `Checking`
simultaneously. -/
theorem c1_flash_click_starts_second_operation_during_check :
    ((clickFlashButton { checking := true, checkCmd := true, checkPty := true,
                         deviceSelected := true, imageSelected := true }).2 = true)
    ∧ ((clickFlashButton { checking := true, checkCmd := true, checkPty := true,
                           deviceSelected := true, imageSelected := true }).1.flashing = true)
    ∧ ((clickFlashButton { checking := true, checkCmd := true, checkPty := true,
                           deviceSelected := true, imageSelected := true }).1.checking = true)
    ∧ ((clickFlashButton { checking := true, checkCmd := true, checkPty := true,
                           deviceSelected := true, imageSelected := true }).1.checkCmd = true) := by
  decide

/-- Concrete model of a flash in progress, used to exercise the abort
paths. -/
def abortDemoModel : Model :=
  { flashing := true, ddCmd := true, ddPty := true }

/-- C7 counterexample: in the kill-failure path of an aborted flash the
deferred tick returns an `ErrorMsg`, not `AbortCompletedMsg`; the model does
reach Idle, but through the `ErrorMsg` handler, and no `AbortCompleted`
event exists on that path — contradicting the claim that the operation is
driven to Idle via the `AbortCompleted` handling path. -/
theorem c7_kill_failure_idles_via_error_handler :
    ((abortOperation abortDemoModel).2 = some AbortScript.killFlash)
    ∧ (abortKillResult AbortScript.killFlash false
        = Msg.errorMsg "error aborting flash")
    ∧ ((abortKillResult AbortScript.killFlash false == Msg.abortCompletedMsg) = false)
    ∧ (isIdle (update (abortOperation abortDemoModel).1
        (abortKillResult AbortScript.killFlash false)) = true) := by
  decide

/-- C7 (amended): after an abort request the operation flags stay set (the
state is never reset eagerly); on a successful kill the tick yields
`AbortCompletedMsg` and the state is reset to Idle only upon consuming it;
when the kill itself fails an Error is reported instead and the operation
is driven to Idle via the `ErrorMsg` handling (no `AbortCompleted` event is
produced on that path). -/
theorem c7_abort_reset_amended :
    ∀ (m : Model) (killOk : Bool),
      (m.flashing = true → m.ddCmd = true →
        (abortOperation m).2 = some AbortScript.killFlash
        ∧ (abortOperation m).1.flashing = true
        ∧ (abortOperation m).1.aborting = true
        ∧ (killOk = true →
            abortKillResult AbortScript.killFlash killOk = Msg.abortCompletedMsg)
        ∧ (killOk = false →
            abortKillResult AbortScript.killFlash killOk
              = Msg.errorMsg "error aborting flash")
        ∧ isIdle (update (abortOperation m).1
            (abortKillResult AbortScript.killFlash killOk)) = true)
      ∧ (m.flashing = false → m.extracting = true → m.extractCmd = true →
        (abortOperation m).2 = some AbortScript.killExtract
        ∧ (abortOperation m).1.extracting = true
        ∧ (abortOperation m).1.aborting = true
        ∧ (killOk = false →
            abortKillResult AbortScript.killExtract killOk
              = Msg.errorMsg "error aborting extraction")
        ∧ isIdle (update (abortOperation m).1
            (abortKillResult AbortScript.killExtract killOk)) = true)
      ∧ (m.flashing = false → m.extracting = false → m.checking = true →
          m.checkCmd = true →
        (abortOperation m).2 = some AbortScript.killCheck
        ∧ (abortOperation m).1.checking = true
        ∧ (abortOperation m).1.aborting = true
        ∧ isIdle (update (abortOperation m).1
            (abortKillResult AbortScript.killCheck killOk)) = true) := by
  intro m killOk
  refine ⟨fun h1 h2 => ?_, fun h1 h2 h3 => ?_, fun h1 h2 h3 h4 => ?_⟩
  · cases killOk <;>
      simp [abortOperation, abortKillResult, update, isIdle, recomputeReady, h1, h2]
  · cases killOk <;>
      simp [abortOperation, abortKillResult, update, isIdle, recomputeReady, h1, h2, h3]
  · cases killOk <;>
      simp [abortOperation, abortKillResult, update, isIdle, recomputeReady,
        h1, h2, h3, h4]

/-- Witness for C7 (amended): a concrete flash in progress, aborted with a
successful kill. -/
theorem c7_abort_reset_amended_witness :
    (abortOperation abortDemoModel).1.flashing = true
    ∧ isIdle (update (abortOperation abortDemoModel).1
        (abortKillResult AbortScript.killFlash true)) = true := by
  have h := (c7_abort_reset_amended abortDemoModel true).1 rfl rfl
  exact ⟨h.2.1, h.2.2.2.2.2⟩

/-
  WriteImage monitoring loop (src/ui/images.go lines 193-301): after the
  pipeline starts, a goroutine polls a done-channel against a one-second
  ticker.  One loop iteration is embedded as a step function over the
  poll outcome; time is in whole seconds.
-/

/-- Whitespace trimming on `String`, embedding `strings.TrimSpace`
(kept kernel-computable by going through the character list). -/
def trimStr (s : String) : String := ⟨trimChars s.toList⟩

/-- One step of the monitoring loop either emits a message on the progress
channel or runs the `sync` command (whose success is the recorded flag). -/
inductive FStep
  | emit (m : Msg)
  | syncRun (ok : Bool)
  deriving DecidableEq, Repr

/-- Outcome of one poll of the loop: the process exited (with the wait
result, the sync result that the completion branch will observe, and the
diagnostic detail read for a failure), or the scanner produced a line, or
the scanner had no further line. -/
inductive Poll
  | exited (exitOk : Bool) (syncOk : Bool) (errDetail : String)
  | line (s : String)
  | scanEnd
  deriving DecidableEq, Repr

/-- Loop state: the timestamp (seconds) of the last successfully parsed
nonempty line, initialised at loop start (`lastProgressTime`). -/
structure MonitorState where
  lastProgress : Nat
  deriving DecidableEq, Repr

/-- Embeds one iteration of the `WriteImage` monitoring loop
(src/ui/images.go lines 218-300).  Returns the new state, the steps taken
in program order, and whether the goroutine returns.  The timeout message
renders `progressTimeout` (120 seconds) as Go prints it. -/
def monitorStep (src dst : String) (st : MonitorState) (now : Nat) (p : Poll) :
    MonitorState × List FStep × Bool :=
  match p with
  | .exited exitOk syncOk errDetail =>
    if !exitOk then (st, [.emit (.errorMsg errDetail)], true)
    else
      (st,
       .emit (.progressMsg "Syncing...") ::
       .syncRun syncOk ::
       (if !syncOk then [.emit (.errorMsg "sync failed")]
        else [.emit (.progressMsg "Sync completed successfully."),
              .emit (.doneMsg src dst)]),
       true)
  | .line s =>
    let trimmed := trimStr s
    if trimmed.length > 0 then
      ({ lastProgress := now }, [.emit (.progressMsg trimmed)], false)
    else (st, [], false)
  | .scanEnd =>
    if now - st.lastProgress > 120 then
      (st, [.emit (.errorMsg "operation timed out - no progress for 2m0s")], true)
    else (st, [], false)

/-- Whether a `DoneMsg` is emitted somewhere in a step trace. -/
def emitsDone : List FStep → Bool
  | [] => false
  | .emit (.doneMsg _ _) :: _ => true
  | _ :: rest => emitsDone rest

/-- Whether an `ErrorMsg` is emitted somewhere in a step trace. -/
def emitsError : List FStep → Bool
  | [] => false
  | .emit (.errorMsg _) :: _ => true
  | _ :: rest => emitsError rest

/-- Holds when every emitted `DoneMsg` is preceded by a successful
`sync` run. -/
def doneOnlyAfterSync : List FStep → Bool
  | [] => true
  | .syncRun true :: _ => true
  | .emit (.doneMsg _ _) :: _ => false
  | _ :: rest => doneOnlyAfterSync rest

/-- C3: when the flash pipeline exits 0 a filesystem sync is run, `DoneMsg`
is emitted only after that sync succeeds, and a failed sync yields an
`ErrorMsg` instead of `DoneMsg`; no exit/sync combination emits `DoneMsg`
unless both succeeded. -/
theorem c3_flash_sync_before_done :
    ∀ (src dst errDetail : String) (syncOk : Bool) (st : MonitorState) (now : Nat),
      (FStep.syncRun syncOk)
          ∈ (monitorStep src dst st now (.exited true syncOk errDetail)).2.1
      ∧ doneOnlyAfterSync
          (monitorStep src dst st now (.exited true syncOk errDetail)).2.1 = true
      ∧ (syncOk = false →
          emitsError (monitorStep src dst st now (.exited true syncOk errDetail)).2.1
              = true
          ∧ emitsDone (monitorStep src dst st now (.exited true syncOk errDetail)).2.1
              = false)
      ∧ (syncOk = true →
          emitsDone (monitorStep src dst st now (.exited true syncOk errDetail)).2.1
              = true)
      ∧ (∀ exitOk : Bool,
          emitsDone (monitorStep src dst st now (.exited exitOk syncOk errDetail)).2.1
              = true →
          exitOk = true ∧ syncOk = true) := by
  intro src dst errDetail syncOk st now
  refine ⟨?_, ?_, fun hs => ?_, fun hs => ?_, fun exitOk h => ?_⟩
  · cases syncOk <;> simp [monitorStep]
  · cases syncOk <;> simp [monitorStep, doneOnlyAfterSync]
  · subst hs; simp [monitorStep, emitsError, emitsDone]
  · subst hs; simp [monitorStep, emitsDone]
  · cases exitOk <;> cases syncOk <;>
      first
      | exact ⟨rfl, rfl⟩
      | (exfalso; revert h; simp [monitorStep, emitsDone])

/-- Witness for C3: a concrete completed flash with a successful sync, and
one with a failed sync. -/
theorem c3_flash_sync_before_done_witness :
    emitsDone (monitorStep "a.img" "/dev/sda" ⟨0⟩ 5 (.exited true true "")).2.1 = true
    ∧ emitsDone (monitorStep "a.img" "/dev/sda" ⟨0⟩ 5 (.exited true false "")).2.1
        = false := by
  refine ⟨(c3_flash_sync_before_done "a.img" "/dev/sda" "" true ⟨0⟩ 5).2.2.2.1 rfl, ?_⟩
  exact ((c3_flash_sync_before_done "a.img" "/dev/sda" "" false ⟨0⟩ 5).2.2.1 rfl).2


/-
  Extraction pipeline (src extract path, current version):
  `ExtractWithProgress` writes through a ".part" temp file and finalizes by
  sync + rename; `UncompressImage` prepares the model, removes a
  pre-existing output, and launches the pipeline.  The filesystem is
  reduced to the existence of the temp and final files; per-line progress
  sends carry no state and are elided from the trace.
-/

/-- Existence of the two files the extraction touches. -/
structure XFS where
  tempExists : Bool
  finalExists : Bool
  deriving DecidableEq, Repr

/-- Effects and emissions of the extraction flow, in program order. -/
inductive XStep
  | removeTemp
  | removeFinal
  | statSource (ok : Bool)
  | startPipeline (ok : Bool)
  | waitExit (ok : Bool)
  | syncRun (ok : Bool)
  | renameTemp (ok : Bool)
  | emit (m : Msg)
  deriving DecidableEq, Repr

/-- Result of an extraction flow: the final filesystem and the trace. -/
structure ExtractResult where
  fs : XFS
  steps : List XStep
  deriving DecidableEq, Repr

/-- Temporary sibling path of the extraction output
(`tempPath := outputPath + ".part"`). -/
def tempPathOf (outputPath : String) : String := outputPath ++ ".part"

/-- Embeds `strings.TrimSuffix`. -/
def trimSuffixStr (s suffix : String) : String :=
  if (suffix.toList).isSuffixOf s.toList then
    ⟨s.toList.take (s.toList.length - suffix.toList.length)⟩
  else s

/-- Embeds `ExtractWithProgress` (current version): best-effort removal of
a previous ".part" temp, stat of the source, pipeline launch writing to the
temp path, then on exit 0 a `sync` run (its result discarded by the source:
`_ = exec.Command("sync").Run()`) followed by the rename to the final name;
every failure path removes the temp file before reporting. -/
def extractRun (compressedPath outputPath : String) (fs : XFS)
    (statOk startOk exitOk syncOk renameOk : Bool) : ExtractResult :=
  let fs0 : XFS := { fs with tempExists := false }
  let pre0 : List XStep := [.emit (.progressMsg "Preparing extraction..."), .removeTemp]
  if !statOk then
    { fs := fs0,
      steps := pre0 ++ [.statSource false, .emit (.errorMsg "failed to get file info")] }
  else
    let pre1 := pre0 ++ [.statSource true,
        .emit (.progressMsg "Compressed and estimated uncompressed sizes"),
        .emit (.progressMsg "Extracting...")]
    if !startOk then
      { fs := fs0,
        steps := pre1 ++ [.startPipeline false,
          .emit (.errorMsg "failed to start extraction command")] }
    else
      let fs1 : XFS := { fs0 with tempExists := true }
      let pre2 := pre1 ++ [.startPipeline true, .emit .extractStartedMsg]
      if !exitOk then
        { fs := { fs1 with tempExists := false },
          steps := pre2 ++ [.waitExit false, .removeTemp,
            .emit (.errorMsg "extraction failed")] }
      else
        let pre3 := pre2 ++ [.waitExit true, .syncRun syncOk]
        if !renameOk then
          { fs := { fs1 with tempExists := false },
            steps := pre3 ++ [.renameTemp false, .removeTemp,
              .emit (.errorMsg "failed to finalize extracted image")] }
        else
          { fs := { tempExists := false, finalExists := true },
            steps := pre3 ++ [.renameTemp true,
              .emit (.progressMsg "Extraction complete."),
              .emit (.extractCompletedMsg compressedPath outputPath)] }

/-- Result of `UncompressImage`: the model, the filesystem, the trace, and
whether the `ExtractWithProgress` command was issued. -/
structure UncompressResult where
  model : Model
  fs : XFS
  steps : List XStep
  started : Bool
  deriving DecidableEq, Repr

/-- State mutations `UncompressImage` performs just before launching the
pipeline (extraction flag, focus, fresh channel, cleared previous command
references). -/
def uncompressImageStart (m : Model) (fs : XFS) (steps : List XStep) : UncompressResult :=
  let m1 :=
    { m with extracting := true,
             logs := m.logs ++ ["> Uncompressing..."],
             extractCmd := false, extractPty := false, aborting := false,
             freshChan := true,
             activeList := if m.isPi then 6 else 5 }
  { model := m1, fs := fs, steps := steps, started := true }

/-- Embeds `UncompressImage` (current version): guard on the selection and
`Extracting`, record the temp/output paths on the model, best-effort temp
removal, then removal of a pre-existing file at the output path - a failure
there reports an error and launches nothing. -/
def uncompressImage (m : Model) (fs : XFS) (compressedPath : String)
    (removeOk : Bool) : UncompressResult :=
  if !m.compressedSelected || m.extracting then
    { model := m, fs := fs, steps := [], started := false }
  else
    let outputPath := trimSuffixStr compressedPath ".xz"
    let m1 := { m with extractOutputPath := some outputPath,
                       extractTempPath := some (tempPathOf outputPath) }
    let fs1 := { fs with tempExists := false }
    if fs1.finalExists then
      let m2 := { m1 with logs := m1.logs ++ ["> Output file already exists. Removing..."] }
      if !removeOk then
        { model := m2, fs := fs1,
          steps := [.removeTemp, .emit (.errorMsg "failed to remove existing file")],
          started := false }
      else
        uncompressImageStart m2 { fs1 with finalExists := false }
          [.removeTemp, .removeFinal]
    else
      uncompressImageStart m1 fs1 [.removeTemp]

/-- Compose `UncompressImage` with the pipeline it launches. -/
def uncompressAndExtract (m : Model) (fs : XFS) (compressedPath : String)
    (removeOk statOk startOk exitOk syncOk renameOk : Bool) : UncompressResult :=
  let u := uncompressImage m fs compressedPath removeOk
  if u.started then
    let r := extractRun compressedPath (trimSuffixStr compressedPath ".xz") u.fs
        statOk startOk exitOk syncOk renameOk
    { u with fs := r.fs, steps := u.steps ++ r.steps }
  else u

/-- Embeds the extract branch of the deferred abort kill (current
`AbortOperation`): a failed kill only reports an error; a successful kill
closes the pty, removes both the ".part" temp and the output path, and
yields `AbortCompletedMsg`. -/
def abortExtractKill (fs : XFS) (killOk : Bool) : XFS × List XStep :=
  if !killOk then (fs, [.emit (.errorMsg "error aborting extraction")])
  else ({ tempExists := false, finalExists := false },
        [.removeTemp, .removeFinal, .emit .abortCompletedMsg])

/-- Holds when no successful pipeline launch precedes the first temp
removal of the trace. -/
def tempRemovedBeforeStart : List XStep → Bool
  | [] => true
  | .removeTemp :: _ => true
  | .startPipeline true :: _ => false
  | _ :: r => tempRemovedBeforeStart r

/-- Holds when every successful rename is preceded by a `sync` run. -/
def renameOnlyAfterSync : List XStep → Bool
  | [] => true
  | .syncRun _ :: _ => true
  | .renameTemp true :: _ => false
  | _ :: r => renameOnlyAfterSync r

/-- Holds when every successful rename is preceded by a zero exit of the
pipeline. -/
def renameOnlyAfterExitOk : List XStep → Bool
  | [] => true
  | .waitExit true :: _ => true
  | .renameTemp true :: _ => false
  | _ :: r => renameOnlyAfterExitOk r

/-- Whether an `ErrorMsg` is emitted somewhere in an extraction trace. -/
def emitsErrorX : List XStep → Bool
  | [] => false
  | .emit (.errorMsg _) :: _ => true
  | _ :: r => emitsErrorX r

/-- Idle model with a compressed image selected, used to drive the
extraction flow. -/
def extractDemoModel : Model := { compressedSelected := true }

/-- Decidable body of the amended C2: over every combination of initial
filesystem and environment oracles, the trace removes the pre-existing temp
before any pipeline launch, the temp never survives the run, a file exists
at the final path if and only if stat, launch, exit 0 and rename all
succeeded (sync is run in between, but its result is discarded), every
successful rename is preceded by the sync run and by exit 0, and the abort
cleanup removes both files. -/
def c2Checks (fsT fsF removeOk statOk startOk exitOk syncOk renameOk : Bool) : Bool :=
  let r := uncompressAndExtract extractDemoModel ⟨fsT, fsF⟩ "a.img.xz"
      removeOk statOk startOk exitOk syncOk renameOk
  tempRemovedBeforeStart r.steps
  && !r.fs.tempExists
  && (!r.started || (r.fs.finalExists == (statOk && startOk && exitOk && renameOk)))
  && renameOnlyAfterSync r.steps
  && renameOnlyAfterExitOk r.steps
  && !(abortExtractKill ⟨fsT, fsF⟩ true).1.tempExists
  && !(abortExtractKill ⟨fsT, fsF⟩ true).1.finalExists

/-- C2 counterexample: with exit 0, a failed sync and a successful rename,
the pipeline still renames the temp file, so a file exists at the final
output path although sync did not succeed - the source discards the sync
result, contradicting the claim that no file exists at the final path
unless exit 0, sync and rename all succeeded. -/
theorem c2_sync_failure_still_finalizes :
    (extractRun "a.img.xz" "a.img" ⟨false, false⟩ true true true false true).fs.finalExists
        = true
    ∧ XStep.syncRun false
        ∈ (extractRun "a.img.xz" "a.img" ⟨false, false⟩ true true true false true).steps := by
  decide

/-- C2 (amended): the pipeline writes to the ".part" temporary sibling of
the output, removes any pre-existing temp before starting, runs sync after
exit 0 and renames only afterwards (the sync result is discarded, so a file
exists at the final path exactly when stat, launch, exit 0 and rename
succeeded), and the temp file never outlives a terminal transition,
including the abort cleanup. -/
theorem c2_extract_temp_lifecycle_amended :
    (∀ fsT fsF removeOk statOk startOk exitOk syncOk renameOk : Bool,
      c2Checks fsT fsF removeOk statOk startOk exitOk syncOk renameOk = true)
    ∧ (∀ outputPath : String,
        (outputPath.toList).isPrefixOf ((tempPathOf outputPath).toList) = true
        ∧ tempPathOf outputPath ≠ outputPath) := by
  refine ⟨by decide, fun outputPath => ⟨?_, ?_⟩⟩
  · have : (tempPathOf outputPath).toList = outputPath.toList ++ ".part".toList := by
      simp [tempPathOf]
    rw [this]
    exact List.isPrefixOf_iff_prefix.mpr (List.prefix_append _ _)
  · intro h
    have := congrArg String.toList h
    simp [tempPathOf] at this

/-- C9: when a file already exists at the final output path,
`UncompressImage` removes it before the extraction pipeline is started;
when that removal fails an error is reported and the extraction does not
start - the `Extracting` flag stays false and no pipeline command is
issued. -/
theorem c9_existing_output_removed_before_start :
    ∀ (m : Model) (fs : XFS) (compressedPath : String) (removeOk : Bool),
      m.compressedSelected = true → m.extracting = false → fs.finalExists = true →
      (removeOk = false →
        (uncompressImage m fs compressedPath removeOk).model.extracting = false
        ∧ (uncompressImage m fs compressedPath removeOk).started = false
        ∧ emitsErrorX (uncompressImage m fs compressedPath removeOk).steps = true)
      ∧ (removeOk = true →
        (uncompressImage m fs compressedPath removeOk).fs.finalExists = false
        ∧ (uncompressImage m fs compressedPath removeOk).started = true
        ∧ (uncompressImage m fs compressedPath removeOk).model.extracting = true) := by
  intro m fs compressedPath removeOk h1 h2 h3
  constructor
  · intro hr; subst hr
    simp [uncompressImage, h1, h2, h3, emitsErrorX]
  · intro hr; subst hr
    simp [uncompressImage, uncompressImageStart, h1, h2, h3]

/-- Witness for C9: a concrete compressed selection over a filesystem with
a pre-existing output file, with a failing and a succeeding removal. -/
theorem c9_existing_output_removed_before_start_witness :
    (uncompressImage extractDemoModel ⟨false, true⟩ "a.img.xz" false).started = false
    ∧ (uncompressImage extractDemoModel ⟨false, true⟩ "a.img.xz" true).started = true := by
  have hf := (c9_existing_output_removed_before_start extractDemoModel ⟨false, true⟩
      "a.img.xz" false rfl rfl rfl).1 rfl
  have ht := (c9_existing_output_removed_before_start extractDemoModel ⟨false, true⟩
      "a.img.xz" true rfl rfl rfl).2 rfl
  exact ⟨hf.2.1, ht.2.1⟩

/-
  Integrity check (`CheckIntegrity` and the integrity.yaml record store):
  sidecar parsing, the sha256 line capture, and the record written on each
  path.  The record-store write itself is modelled as succeeding; the
  launch of the raw-image pipeline likewise (the claims under test concern
  the compressed second phase and the sidecar handling).
-/

/-- Persisted record of one completed check
(`IntegrityEntry` in the source). -/
structure IntegrityEntry where
  typ : String
  method : String
  status : String
  checkedAt : String
  expected : String := ""
  actual : String := ""
  deriving DecidableEq, Repr

/-- Effects and emissions of a check run: messages, pipeline launches of a
hashing phase (with the launch result), and the record write. -/
inductive CStep
  | emit (m : Msg)
  | hashPhase (startOk : Bool)
  | saveRecord (e : IntegrityEntry)
  deriving DecidableEq, Repr

/-- Hexadecimal digit test of the `[0-9a-fA-F]` class. -/
def isHexDigitCh (c : Char) : Bool :=
  isDigitCh c || ('a' ≤ c && c ≤ 'f') || ('A' ≤ c && c ≤ 'F')

/-- Embeds the prefix match of `^[0-9a-fA-F]{64}` on a line. -/
def hashReMatch (s : String) : Bool :=
  decide (64 ≤ s.toList.length) && (s.toList.take 64).all isHexDigitCh

/-- Embeds the full match of `^[0-9a-fA-F]{64}$` on a sidecar value. -/
def isHex64Full (s : String) : Bool :=
  (s.toList.length == 64) && s.toList.all isHexDigitCh

/-- Embeds `strings.Fields`: maximal runs of non-whitespace characters.
Fuel is the list length. -/
def fieldsGo : Nat → List Char → List (List Char)
  | 0, _ => []
  | _ + 1, [] => []
  | fuel + 1, c :: r =>
    if c.isWhitespace then fieldsGo fuel r
    else (c :: r.takeWhile (fun d => !d.isWhitespace))
         :: fieldsGo fuel (r.dropWhile (fun d => !d.isWhitespace))

/-- Whitespace-separated fields of a string. -/
def fieldsOf (s : String) : List String :=
  (fieldsGo s.toList.length s.toList).map (fun cs => ⟨cs⟩)

/-- Embeds `strings.EqualFold` for the ASCII range the checksums use. -/
def foldCh (c : Char) : Char :=
  if 'A' ≤ c && c ≤ 'Z' then Char.ofNat (c.toNat + 32) else c

/-- Case-insensitive string comparison (ASCII folding). -/
def equalFold (a b : String) : Bool :=
  a.toList.map foldCh == b.toList.map foldCh

/-- Embeds the scanner loop watching for a sha256 line: blank lines are
skipped; a line whose first 64 characters are hexadecimal replaces the
captured hash with its first field. -/
def hashScanFinal (acc : String) : List String → String
  | [] => acc
  | l :: ls =>
    if trimStr l == "" then hashScanFinal acc ls
    else if hashReMatch (trimStr l) then
      match fieldsOf (trimStr l) with
      | f :: _ => hashScanFinal f ls
      | [] => hashScanFinal acc ls
    else hashScanFinal acc ls

/-- The progress messages the scanner forwards: one per nonempty trimmed
line. -/
def scanEmits : List String → List CStep
  | [] => []
  | l :: ls =>
    if trimStr l == "" then scanEmits ls
    else CStep.emit (.progressMsg (trimStr l)) :: scanEmits ls

/-- First record written in a check trace. -/
def firstSaved : List CStep → Option IntegrityEntry
  | [] => none
  | .saveRecord e :: _ => some e
  | _ :: r => firstSaved r

/-- Whether any record is written in a check trace. -/
def recordSavedC : List CStep → Bool
  | [] => false
  | .saveRecord _ :: _ => true
  | _ :: r => recordSavedC r

/-- Whether a hashing phase is successfully launched anywhere in a check
trace. -/
def hashPhaseRan : List CStep → Bool
  | [] => false
  | .hashPhase true :: _ => true
  | _ :: r => hashPhaseRan r

/-- Holds when every record write is preceded by a successfully launched
hashing phase. -/
def hashRanBeforeSave : List CStep → Bool
  | [] => true
  | .hashPhase true :: _ => true
  | .saveRecord _ :: _ => false
  | _ :: r => hashRanBeforeSave r

/-- Whether an `ErrorMsg` is emitted somewhere in a check trace. -/
def emitsErrorC : List CStep → Bool
  | [] => false
  | .emit (.errorMsg _) :: _ => true
  | _ :: r => emitsErrorC r

theorem firstSaved_scanEmits_append (ls : List String) (r : List CStep) :
    firstSaved (scanEmits ls ++ r) = firstSaved r := by
  induction ls with
  | nil => rfl
  | cons l ls ih =>
    unfold scanEmits
    by_cases h : trimStr l == "" <;> simp [h, firstSaved, ih]

theorem emitsErrorC_scanEmits_append (ls : List String) (r : List CStep) :
    emitsErrorC (scanEmits ls ++ r) = emitsErrorC r := by
  induction ls with
  | nil => rfl
  | cons l ls ih =>
    unfold scanEmits
    by_cases h : trimStr l == "" <;> simp [h, emitsErrorC, ih]

theorem hashRanBeforeSave_scanEmits_append (ls : List String) (r : List CStep) :
    hashRanBeforeSave (scanEmits ls ++ r) = hashRanBeforeSave r := by
  induction ls with
  | nil => rfl
  | cons l ls ih =>
    unfold scanEmits
    by_cases h : trimStr l == "" <;> simp [h, hashRanBeforeSave, ih]

/-- Embeds the compressed branch of `CheckIntegrity` after the `xz -tv`
wait (`verifyOk` its result): announce, launch the second `pv | sha256sum`
pipeline (`hashStartOk`), scan its lines for the hash, then write the
record; when the launch fails the record is written at once without an
actual value.  Both the OK and the failed verification take the same
shape, differing in status and final event. -/
def checkCompressedFinish (imagePath now : String)
    (verifyOk hashStartOk : Bool) (hashLines : List String) : List CStep :=
  if verifyOk then
    .emit (.progressMsg "Integrity OK. Computing SHA-256 of compressed file...") ::
    (if !hashStartOk then
      [.hashPhase false,
       .saveRecord { typ := "compressed", method := "xz -tv", status := "ok",
                     checkedAt := now },
       .emit (.errorMsg "failed to start sha256sum"),
       .emit (.checkCompletedMsg imagePath true)]
    else
      .hashPhase true :: .emit .checkStartedMsg ::
      (scanEmits hashLines ++
       [.saveRecord { typ := "compressed", method := "xz -tv", status := "ok",
                      checkedAt := now, actual := hashScanFinal "" hashLines },
        .emit (.progressMsg "Saved integrity record to integrity.yaml"),
        .emit (.checkCompletedMsg imagePath true)]))
  else
    .emit (.progressMsg "Integrity failed. Computing SHA-256 of compressed file...") ::
    (if !hashStartOk then
      [.hashPhase false,
       .saveRecord { typ := "compressed", method := "xz -tv", status := "failed",
                     checkedAt := now },
       .emit (.errorMsg "failed to start sha256sum"),
       .emit (.checkCompletedMsg imagePath false)]
    else
      .hashPhase true :: .emit .checkStartedMsg ::
      (scanEmits hashLines ++
       [.saveRecord { typ := "compressed", method := "xz -tv", status := "failed",
                      checkedAt := now, actual := hashScanFinal "" hashLines },
        .emit (.progressMsg "Saved integrity record to integrity.yaml"),
        .emit (.checkCompletedMsg imagePath false)]))

/-- Embeds the sidecar parsing of the raw-image branch: trim the file
content, keep the first whitespace-separated field, accept exactly 64
hexadecimal characters (`none` models an unreadable sidecar file). -/
def sidecarExpected (sidecar : Option String) : Bool × String :=
  match sidecar with
  | none => (false, "")
  | some data =>
    let e0 := trimStr data
    let e1 := match fieldsOf e0 with | f :: _ => f | [] => e0
    (isHex64Full e1, e1)

/-- Embeds the raw-image branch of `CheckIntegrity`: sidecar handling
messages, the streaming `pv | sha256sum` pipeline, hash capture, and the
record write with the three-way status (ok / failed / computed). -/
def checkRawRun (imagePath now : String) (sidecar : Option String)
    (scanLines : List String) (exitOk : Bool) : List CStep :=
  let he := sidecarExpected sidecar
  let preMsg : List CStep :=
    match sidecar with
    | none => [.emit (.progressMsg "No checksum file found; computing actual SHA-256 only")]
    | some _ =>
      if he.1 then []
      else [.emit (.progressMsg "Warning: invalid checksum format; will compute actual hash only")]
  let fh := hashScanFinal "" scanLines
  let okRes := he.1 && (fh != "") && equalFold fh he.2 && exitOk
  let status := if okRes then "ok" else if he.1 then "failed" else "computed"
  preMsg ++ (.hashPhase true :: .emit .checkStartedMsg ::
    (scanEmits scanLines ++
     [.saveRecord { typ := "raw", method := "sha256sum", status := status,
                    checkedAt := now, expected := he.2, actual := fh },
      .emit (.progressMsg "Saved integrity record to integrity.yaml"),
      .emit (.checkCompletedMsg imagePath okRes)]))

/-- Nonemptiness of a well-formed sidecar value. -/
theorem isHex64Full_ne_empty (s : String) (h : isHex64Full s = true) : s ≠ "" := by
  intro he
  subst he
  exact absurd h (by decide)

/-- C5 counterexample: when the second `pv | sha256sum` pipeline cannot be
started, `CheckIntegrity` writes the integrity record at once - on the OK
path and on the failed path alike - so a record is written although no
hashing phase ran, contradicting the claim that the second hashing phase
runs before the record is written for every Check of a compressed
source. -/
theorem c5_record_without_hash_phase :
    recordSavedC (checkCompressedFinish "a.img.xz" "t0" true false []) = true
    ∧ hashPhaseRan (checkCompressedFinish "a.img.xz" "t0" true false []) = false
    ∧ recordSavedC (checkCompressedFinish "a.img.xz" "t0" false false []) = true
    ∧ hashPhaseRan (checkCompressedFinish "a.img.xz" "t0" false false []) = false := by
  decide

/-- C5 (amended): for every Check of a compressed source the second
hashing phase is started whenever it can be - both when the verifier
reports OK and when it reports failure - and then runs before the record
is written, the record storing the measured actual checksum captured from
the hash output; when the phase cannot be started the record is written
without an actual value; the status always reflects the verifier
result. -/
theorem c5_compressed_second_hash_amended :
    ∀ (imagePath now : String) (verifyOk hashStartOk : Bool) (hashLines : List String),
      (hashStartOk = true →
        hashRanBeforeSave
            (checkCompressedFinish imagePath now verifyOk hashStartOk hashLines) = true
        ∧ (firstSaved (checkCompressedFinish imagePath now verifyOk hashStartOk hashLines)).map
            (fun e => e.actual) = some (hashScanFinal "" hashLines))
      ∧ (hashStartOk = false →
        hashPhaseRan
            (checkCompressedFinish imagePath now verifyOk hashStartOk hashLines) = false
        ∧ (firstSaved (checkCompressedFinish imagePath now verifyOk hashStartOk hashLines)).map
            (fun e => e.actual) = some "")
      ∧ (firstSaved (checkCompressedFinish imagePath now verifyOk hashStartOk hashLines)).map
          (fun e => e.status) = some (if verifyOk = true then "ok" else "failed") := by
  intro imagePath now verifyOk hashStartOk hashLines
  refine ⟨fun h => ?_, fun h => ?_, ?_⟩
  · subst h
    cases verifyOk <;>
      simp [checkCompressedFinish, hashRanBeforeSave, firstSaved,
        firstSaved_scanEmits_append]
  · subst h
    cases verifyOk <;>
      simp [checkCompressedFinish, hashPhaseRan, firstSaved]
  · cases verifyOk <;> cases hashStartOk <;>
      simp [checkCompressedFinish, firstSaved, firstSaved_scanEmits_append]

/-- Sha256 output line used to exercise the hash capture. -/
def demoHashLine : String :=
  "aaaaaaaaaaaaaaaaaaaaaaaaaaaaaaaaaaaaaaaaaaaaaaaaaaaaaaaaaaaaaaaa  -"

/-- Witness for C5 (amended): a concrete compressed check whose second
phase captures the hash line. -/
theorem c5_compressed_second_hash_amended_witness :
    (firstSaved (checkCompressedFinish "a.img.xz" "t0" true true [demoHashLine])).map
        (fun e => e.actual)
      = some "aaaaaaaaaaaaaaaaaaaaaaaaaaaaaaaaaaaaaaaaaaaaaaaaaaaaaaaaaaaaaaaa" := by
  have h :=
    ((c5_compressed_second_hash_amended "a.img.xz" "t0" true true [demoHashLine]).1 rfl).2
  rw [h]
  decide

/-- C6: for a Check of an uncompressed image the actual checksum is
computed by streaming and compared against the sidecar only when the
sidecar parses to exactly 64 hexadecimal characters; on a mismatch the
persisted record has status "failed" with both expected and actual
populated; an absent or malformed sidecar yields a record with status
"computed" and no error event. -/
theorem c6_raw_sidecar_check :
    ∀ (imagePath now : String) (sidecar : Option String) (scanLines : List String)
      (exitOk : Bool),
      ((sidecarExpected sidecar).1 = false →
        (firstSaved (checkRawRun imagePath now sidecar scanLines exitOk)).map
            (fun e => e.status) = some "computed"
        ∧ emitsErrorC (checkRawRun imagePath now sidecar scanLines exitOk) = false)
      ∧ ((sidecarExpected sidecar).1 = true →
          hashScanFinal "" scanLines ≠ "" →
          equalFold (hashScanFinal "" scanLines) (sidecarExpected sidecar).2 = false →
          (firstSaved (checkRawRun imagePath now sidecar scanLines exitOk)).map
              (fun e => e.status) = some "failed"
          ∧ (firstSaved (checkRawRun imagePath now sidecar scanLines exitOk)).map
              (fun e => e.expected) = some (sidecarExpected sidecar).2
          ∧ (sidecarExpected sidecar).2 ≠ ""
          ∧ (firstSaved (checkRawRun imagePath now sidecar scanLines exitOk)).map
              (fun e => e.actual) = some (hashScanFinal "" scanLines))
      ∧ ((sidecarExpected sidecar).1 = true →
          isHex64Full (sidecarExpected sidecar).2 = true)
      ∧ hashRanBeforeSave (checkRawRun imagePath now sidecar scanLines exitOk) = true := by
  intro imagePath now sidecar scanLines exitOk
  refine ⟨fun h => ?_, fun h h2 h3 => ?_, fun h => ?_, ?_⟩
  · cases sidecar with
    | none =>
      simp [checkRawRun, sidecarExpected, firstSaved, emitsErrorC,
        firstSaved_scanEmits_append, emitsErrorC_scanEmits_append]
    | some data =>
      simp only [checkRawRun]
      simp [h, firstSaved, emitsErrorC,
        firstSaved_scanEmits_append, emitsErrorC_scanEmits_append]
  · have hexp : isHex64Full (sidecarExpected sidecar).2 = true := by
      cases sidecar with
      | none => exact absurd h (by decide)
      | some data => simpa [sidecarExpected] using h
    refine ⟨?_, ?_, isHex64Full_ne_empty _ hexp, ?_⟩ <;>
      cases sidecar with
      | none => exact absurd h (by decide)
      | some data =>
        simp only [checkRawRun]
        simp [h, h3, firstSaved, firstSaved_scanEmits_append]
  · cases sidecar with
    | none => exact absurd h (by decide)
    | some data => simpa [sidecarExpected] using h
  · cases sidecar with
    | none =>
      simp [checkRawRun, sidecarExpected, hashRanBeforeSave]
    | some data =>
      by_cases hh : (sidecarExpected (some data)).1 = true
      · simp only [checkRawRun]
        simp [hh, hashRanBeforeSave]
      · simp only [checkRawRun]
        simp [Bool.of_not_eq_true hh, hashRanBeforeSave]

/-- Well-formed sidecar value used as the expected checksum. -/
def demoSidecar : String :=
  "deadbeefdeadbeefdeadbeefdeadbeefdeadbeefdeadbeefdeadbeefdeadbeef"

/-- Witness for C6: a concrete uncompressed check against a well-formed
sidecar that does not match the computed hash. -/
theorem c6_raw_sidecar_check_witness :
    (firstSaved (checkRawRun "b.img" "t0" (some demoSidecar) [demoHashLine] true)).map
        (fun e => e.status) = some "failed"
    ∧ (sidecarExpected (some demoSidecar)).2 ≠ "" := by
  have h := ((c6_raw_sidecar_check "b.img" "t0" (some demoSidecar) [demoHashLine] true).2.1)
      (by decide) (by decide) (by decide)
  exact ⟨h.1, h.2.2.1⟩

/-- Witness for C2 (amended): one concrete oracle combination, and the
sibling-suffix facts at a concrete output path. -/
theorem c2_extract_temp_lifecycle_amended_witness :
    c2Checks true false true true true true false true = true
    ∧ ("a.img".toList).isPrefixOf ((tempPathOf "a.img").toList) = true := by
  exact ⟨c2_extract_temp_lifecycle_amended.1 true false true true true true false true,
         (c2_extract_temp_lifecycle_amended.2 "a.img").1⟩

/-- Text of the timeout-specific error the Flash monitoring loop emits
(the rendered `"operation timed out - no progress for %v"` with the
120-second window). -/
def timeoutErrorText : String := "operation timed out - no progress for 2m0s"

/-- Whether an extraction trace emits the timeout-specific error. -/
def emitsTimeoutErrX : List XStep → Bool
  | [] => false
  | .emit (.errorMsg e) :: r =>
    if e = timeoutErrorText then true else emitsTimeoutErrX r
  | _ :: r => emitsTimeoutErrX r

/-- Whether a check trace emits the timeout-specific error. -/
def emitsTimeoutErrC : List CStep → Bool
  | [] => false
  | .emit (.errorMsg e) :: r =>
    if e = timeoutErrorText then true else emitsTimeoutErrC r
  | _ :: r => emitsTimeoutErrC r

theorem emitsTimeoutErrC_scanEmits_append (ls : List String) (r : List CStep) :
    emitsTimeoutErrC (scanEmits ls ++ r) = emitsTimeoutErrC r := by
  induction ls with
  | nil => rfl
  | cons l ls ih =>
    unfold scanEmits
    by_cases h : trimStr l == "" <;> simp [h, emitsTimeoutErrC, ih]

/-- C4 counterexample: the claim demands, for every Running operation, a
timeout transition to Failed after at least 120 seconds without a parsed
progress line.  For Flash: at exactly 120 seconds of silence a poll with
an exhausted scanner emits nothing and keeps looping, and at 200 seconds
of silence a poll that yields a whitespace-only line (not a parsed
progress line; it does not reset the clock) also emits nothing - the
timeout fires only with no line at all and only strictly beyond 120
seconds.  For Extract and Check the workers carry no clock at all: their
step functions take no time input, so however long the stream stays
silent the trace is fixed, and even the trace of a failing extraction
(which does reach Failed, through process exit) and of a completed
compressed check contain no timeout-specific error. -/
theorem c4_timeout_counterexample :
    monitorStep "a.img" "/dev/sda" ⟨0⟩ 120 .scanEnd = (⟨0⟩, [], false)
    ∧ monitorStep "a.img" "/dev/sda" ⟨0⟩ 200 (.line "   ") = (⟨0⟩, [], false)
    ∧ monitorStep "a.img" "/dev/sda" ⟨0⟩ 121 .scanEnd
        = (⟨0⟩, [.emit (.errorMsg "operation timed out - no progress for 2m0s")], true)
    ∧ emitsTimeoutErrX
        (extractRun "a.img.xz" "a.img" ⟨false, false⟩ true true false true true).steps
        = false
    ∧ emitsErrorX
        (extractRun "a.img.xz" "a.img" ⟨false, false⟩ true true false true true).steps
        = true
    ∧ emitsTimeoutErrC (checkCompressedFinish "a.img.xz" "t0" true true []) = false := by
  refine ⟨by decide, by decide, by decide, by decide, by decide, by decide⟩

/-- C4 (amended): only the Flash monitoring loop implements the silence
timeout.  For Flash, when a poll finds the scanner without a further line
and strictly more than 120 seconds have elapsed since the last
successfully parsed nonempty line, the loop emits the timeout-specific
`ErrorMsg` and stops, and consuming that message drives the model out of
the running state without user action; polls that yield a line (even a
blank one) never trigger the timeout.  Extract and Check have no timeout:
over every environment outcome their workers never emit the
timeout-specific error (their step functions take no time input at all),
so those operations never transition to Failed on silence. -/
theorem c4_timeout_amended :
    (∀ (src dst : String) (st : MonitorState) (now : Nat) (m : Model),
      now - st.lastProgress > 120 →
      (monitorStep src dst st now .scanEnd).2.1
          = [.emit (.errorMsg "operation timed out - no progress for 2m0s")]
      ∧ (monitorStep src dst st now .scanEnd).2.2 = true
      ∧ isIdle (update m (.errorMsg "operation timed out - no progress for 2m0s"))
          = true
      ∧ ∀ s : String, (monitorStep src dst st now (.line s)).2.2 = false)
    ∧ (∀ (cp op : String) (fsT fsF statOk startOk exitOk syncOk renameOk : Bool),
        emitsTimeoutErrX
          (extractRun cp op ⟨fsT, fsF⟩ statOk startOk exitOk syncOk renameOk).steps
          = false)
    ∧ (∀ (imagePath now : String) (verifyOk hashStartOk : Bool)
        (hashLines : List String),
        emitsTimeoutErrC
          (checkCompressedFinish imagePath now verifyOk hashStartOk hashLines) = false)
    ∧ (∀ (imagePath now : String) (sidecar : Option String)
        (scanLines : List String) (exitOk : Bool),
        emitsTimeoutErrC (checkRawRun imagePath now sidecar scanLines exitOk)
          = false) := by
  refine ⟨?_, ?_, ?_, ?_⟩
  · intro src dst st now m h
    refine ⟨?_, ?_, ?_, fun s => ?_⟩
    · simp [monitorStep, h]
    · simp [monitorStep, h]
    · simp [update, isIdle, recomputeReady]
    · by_cases hs : 0 < (trimStr s).length <;> simp [monitorStep, hs]
  · intro cp op fsT fsF statOk startOk exitOk syncOk renameOk
    cases statOk <;> cases startOk <;> cases exitOk <;> cases renameOk <;>
      simp [extractRun, emitsTimeoutErrX, timeoutErrorText]
  · intro imagePath now verifyOk hashStartOk hashLines
    cases verifyOk <;> cases hashStartOk <;>
      simp [checkCompressedFinish, emitsTimeoutErrC,
        emitsTimeoutErrC_scanEmits_append, timeoutErrorText]
  · intro imagePath now sidecar scanLines exitOk
    cases sidecar with
    | none =>
      simp [checkRawRun, sidecarExpected, emitsTimeoutErrC,
        emitsTimeoutErrC_scanEmits_append]
    | some data =>
      by_cases hh : (sidecarExpected (some data)).1 = true
      · simp only [checkRawRun]
        simp [hh, emitsTimeoutErrC, emitsTimeoutErrC_scanEmits_append]
      · simp only [checkRawRun]
        simp [Bool.of_not_eq_true hh, emitsTimeoutErrC,
          emitsTimeoutErrC_scanEmits_append]

/-- Witness for C4 (amended): 121 seconds of silence at a poll with no
line on the Flash loop. -/
theorem c4_timeout_amended_witness :
    (monitorStep "a.img" "/dev/sda" ⟨0⟩ 121 .scanEnd).2.2 = true
    ∧ isIdle (update abortDemoModel
        (.errorMsg "operation timed out - no progress for 2m0s")) = true := by
  have h := c4_timeout_amended.1 "a.img" "/dev/sda" ⟨0⟩ 121 abortDemoModel (by decide)
  exact ⟨h.2.1, h.2.2.1⟩
